import Mathlib

/-!
Verification of `src/resource.go` of the operator-kit repository: the
dual-protocol custom-resource registration-and-convergence routine.

The Kubernetes client is external to the repository, so it is modelled as an
explicit environment: every remote call (create a declaration, fetch its
conditions, probe a raw URI, delete a declaration, query the server version)
is a field of `Env`.  Calls that the code repeats inside a poll loop take the
poll index as an extra argument, so the environment describes the full
sequence of remote observations.  `wait.Poll` is modelled as a fuel-bounded
loop (`waitPoll`): the fuel is the number of poll ticks the configured
`Timeout`/`Interval` pair allows.  Go errors are values of the inductive
`KError`; `nil` errors are `Option.none`.  `CreateCustomResources` returns,
besides its outcome, the trace of per-descriptor operations it performed, in
order, so that phase-ordering and coverage properties can be stated.
-/

namespace OperatorKit

/-- Scope of a custom resource declaration: namespaced or cluster-wide
(`apiextensionsv1beta1.ResourceScope` in the source). -/
inductive ResourceScope where
  | namespaced
  | cluster
deriving DecidableEq, Repr

/-- `CustomResource` (src/resource.go lines 39-57): identifies one custom
resource type to register. -/
structure CustomResource where
  name : String
  plural : String
  group : String
  version : String
  scope : ResourceScope
  kind : String
deriving DecidableEq, Repr

/-- Go error values reaching this code.  `aggregate` models
`errorsUtil.NewAggregate([]error{err, deleteErr})` at its single call site
(two non-nil errors).  `failedCreateCRD` / `failedCreateTPR` model the
`fmt.Errorf("failed to create %s ...")` wrappers; `serverVersionError` the
`fmt.Errorf("Error getting server version: %v")` wrapper. -/
inductive KError where
  | alreadyExists
  | notFound
  | waitTimeout
  | nameConflict (reason : String)
  | failedCreateCRD (name : String) (cause : KError)
  | failedCreateTPR (name : String) (cause : KError)
  | aggregate (first second : KError)
  | serverVersionError (msg : String)
  | other (msg : String)
deriving DecidableEq, Repr

/-- `errors.IsAlreadyExists`: recognises the "already exists" status error. -/
def IsAlreadyExists : KError → Bool
  | .alreadyExists => true
  | _ => false

/-- `errors.IsNotFound`: recognises the "not found" status error. -/
def IsNotFound : KError → Bool
  | .notFound => true
  | _ => false

/-- Names part of a CRD spec (`CustomResourceDefinitionNames`). -/
structure CRDNames where
  singular : String
  plural : String
  kind : String
deriving DecidableEq, Repr

/-- Spec part of a CRD declaration (`CustomResourceDefinitionSpec`). -/
structure CRDSpec where
  group : String
  version : String
  scope : ResourceScope
  names : CRDNames
deriving DecidableEq, Repr

/-- A CRD declaration object as built by `createCRD` (metadata name plus
spec). -/
structure CRDObject where
  name : String
  spec : CRDSpec
deriving DecidableEq, Repr

/-- A TPR declaration object as built by `createTPR` (metadata name, version
entries, description). -/
structure TPRObject where
  name : String
  versions : List String
  description : String
deriving DecidableEq, Repr

/-- One status condition of a registered CRD
(`apiextensionsv1beta1.CustomResourceDefinitionCondition`): a type tag
(e.g. "Established", "NamesAccepted"), a status ("True"/"False"/"Unknown")
and a reason. -/
structure CRDCondition where
  type : String
  status : String
  reason : String
deriving DecidableEq, Repr

/-- The remote control plane and client, as observed by the code.  Poll-loop
calls receive the poll index (0-based) as final argument. -/
structure Env where
  /-- `Discovery().ServerVersion()`: an error, or the reported GitVersion. -/
  serverVersion : Except String String
  /-- `CustomResourceDefinitions().Create(crd)`: `none` is a nil error. -/
  crdCreate : CRDObject → Option KError
  /-- `CustomResourceDefinitions().Get(crdName, ...)` at the given poll
  index: an error, or the declaration's current status conditions. -/
  crdGet : String → Nat → Except KError (List CRDCondition)
  /-- `ThirdPartyResources().Create(tpr)`: `none` is a nil error. -/
  tprCreate : TPRObject → Option KError
  /-- `restcli.Get().RequestURI(uri).DoRaw()` at the given poll index:
  an error, or a successful raw response. -/
  tprProbe : String → Nat → Except KError Unit
  /-- `ThirdPartyResources().Delete(tprName, nil)`: `none` is a nil error. -/
  tprDelete : String → Option KError

/-- `Context` (src/resource.go lines 60-65): clientsets plus poll
configuration.  The clientsets are the environment; `Interval` and `Timeout`
are abstracted into `fuel`, the number of poll ticks the timeout allows
(`wait.Poll` gives up with a timeout error once they are spent). -/
structure Context where
  env : Env
  fuel : Nat

/-- Result of one call of a `wait.ConditionFunc`:
`(true, nil)`, `(false, nil)`, or a non-nil error. -/
inductive CondResult where
  | done
  | notYet
  | fail (e : KError)
deriving DecidableEq, Repr

/-- Modelled from the spec: the bounded poll primitive `wait.Poll(interval,
timeout, condFn)` of `k8s.io/apimachinery/pkg/util/wait`, which is not part
of this repository.  It runs the condition once per tick: `(true, nil)`
terminates with success, a non-nil error terminates with that error,
`(false, nil)` waits one interval and retries; when the timeout deadline
passes without a terminal answer it returns its timeout error.  `fuel` is
the number of ticks left and `i` the index of the next poll. -/
def waitPollFrom (condFn : Nat → CondResult) : Nat → Nat → Except KError Unit
  | 0, _ => .error .waitTimeout
  | fuel + 1, i =>
    match condFn i with
    | .done => .ok ()
    | .fail e => .error e
    | .notYet => waitPollFrom condFn fuel (i + 1)

/-- `wait.Poll` started at poll index 0. -/
def waitPoll (fuel : Nat) (condFn : Nat → CondResult) : Except KError Unit :=
  waitPollFrom condFn fuel 0

/-- The CRD identifier `fmt.Sprintf("%s.%s", resource.Plural,
resource.Group)`. -/
def crdName (resource : CustomResource) : String :=
  resource.plural ++ "." ++ resource.group

/-- The CRD declaration object built by `createCRD`
(src/resource.go lines 112-127). -/
def buildCRD (resource : CustomResource) : CRDObject :=
  { name := crdName resource
    spec :=
      { group := resource.group
        version := resource.version
        scope := resource.scope
        names :=
          { singular := resource.name
            plural := resource.plural
            kind := resource.kind } } }

/-- `createCRD` (src/resource.go lines 111-136): submit the CRD declaration;
an "already exists" submission error is treated as success, any other
submission error is wrapped and returned. -/
def createCRD (context : Context) (resource : CustomResource) : Option KError :=
  match context.env.crdCreate (buildCRD resource) with
  | some err =>
    if ¬ IsAlreadyExists err then some (.failedCreateCRD resource.name err)
    else none
  | none => none

/-- The body of the condition `switch` in `waitForCRDInit`
(src/resource.go lines 145-157): scan the conditions in order; the first
`Established`/`True` yields `(true, nil)`, the first `NamesAccepted`/`False`
yields a name-conflict error carrying that condition's reason; any other
condition is skipped; an exhausted list yields `(false, nil)`. -/
def checkConditions : List CRDCondition → CondResult
  | [] => .notYet
  | cond :: rest =>
    if cond.type = "Established" then
      if cond.status = "True" then .done
      else checkConditions rest
    else if cond.type = "NamesAccepted" then
      if cond.status = "False" then .fail (.nameConflict cond.reason)
      else checkConditions rest
    else checkConditions rest

/-- The `wait.ConditionFunc` closure of `waitForCRDInit`: fetch the CRD and
scan its status conditions; a fetch error is returned as-is. -/
def crdCondFn (context : Context) (resource : CustomResource) (i : Nat) :
    CondResult :=
  match context.env.crdGet (crdName resource) i with
  | .error err => .fail err
  | .ok conds => checkConditions conds

/-- `waitForCRDInit` (src/resource.go lines 138-159): poll the CRD's status
conditions until established, name conflict, fetch error, or timeout. -/
def waitForCRDInit (context : Context) (resource : CustomResource) :
    Except KError Unit :=
  waitPoll context.fuel (crdCondFn context resource)

/-- The TPR identifier `fmt.Sprintf("%s.%s", resource.Name,
resource.Group)`. -/
def tprName (resource : CustomResource) : String :=
  resource.name ++ "." ++ resource.group

/-- The TPR declaration object built by `createTPR`
(src/resource.go lines 161-171). -/
def buildTPR (resource : CustomResource) : TPRObject :=
  { name := tprName resource
    versions := [resource.version]
    description := "ThirdPartyResource for " ++ resource.name }

/-- `createTPR` (src/resource.go lines 161-179): submit the TPR declaration;
an "already exists" submission error is treated as success, any other
submission error is wrapped and returned. -/
def createTPR (context : Context) (resource : CustomResource) : Option KError :=
  match context.env.tprCreate (buildTPR resource) with
  | some err =>
    if ¬ IsAlreadyExists err then some (.failedCreateTPR resource.name err)
    else none
  | none => none

/-- The synthesized probe URI `fmt.Sprintf("apis/%s/%s/%s", resource.Group,
resource.Version, resource.Plural)`. -/
def tprURI (resource : CustomResource) : String :=
  "apis/" ++ resource.group ++ "/" ++ resource.version ++ "/" ++
    resource.plural

/-- The `wait.ConditionFunc` closure of `waitForTPRInit`
(src/resource.go lines 187-197): raw existence probe of the URI; "not found"
keeps polling, any other error is terminal, a successful response is
success. -/
def tprProbeFn (context : Context) (resource : CustomResource) (i : Nat) :
    CondResult :=
  match context.env.tprProbe (tprURI resource) i with
  | .error err =>
    if IsNotFound err then .notYet
    else .fail err
  | .ok _ => .done

/-- `waitForTPRInit` (src/resource.go lines 181-206): poll the raw URI until
it exists; on any wait failure (timeout included), attempt a compensating
delete of the TPR declaration; a failed delete is aggregated with the
original wait error, a successful delete leaves the original error alone. -/
def waitForTPRInit (context : Context) (resource : CustomResource) :
    Option KError :=
  match waitPoll context.fuel (tprProbeFn context resource) with
  | .ok _ => none
  | .error err =>
    match context.env.tprDelete (tprName resource) with
    | some deleteErr => some (.aggregate err deleteErr)
    | none => some err

/-- A parsed semantic version: major.minor.patch. -/
structure SemVer where
  major : Nat
  minor : Nat
  patch : Nat
deriving DecidableEq, Repr

/-- Split a character list into the groups separated by `'.'`. -/
def splitDots : List Char → List (List Char)
  | [] => [[]]
  | c :: rest =>
    if c = '.' then [] :: splitDots rest
    else
      match splitDots rest with
      | [] => [[c]]
      | g :: gs => (c :: g) :: gs

/-- A nonempty all-digit character group parsed as a natural number. -/
def parseNatDigits (cs : List Char) : Option Nat :=
  if cs.isEmpty then none
  else if cs.all (fun c => c.isDigit) then
    some (cs.foldl (fun n c => n * 10 + (c.toNat - 48)) 0)
  else none

/-- Modelled from the spec: `version.MustParseSemantic` of
`k8s.io/kubernetes/pkg/util/version`, which is not part of this repository.
The spec: "parse it as a semantic version ... parse failure is a fatal error
for the whole operation".  A semantic version is `MAJOR.MINOR.PATCH`, three
dot-separated numeric components, with an optional leading `v`; anything
else fails to parse (`MustParseSemantic` panics). -/
def parseSemantic (s : String) : Option SemVer :=
  let chars :=
    match s.data with
    | 'v' :: rest => rest
    | cs => cs
  match splitDots chars with
  | [a, b, c] =>
    match parseNatDigits a, parseNatDigits b, parseNatDigits c with
    | some x, some y, some z => some ⟨x, y, z⟩
    | _, _, _ => none
  | _ => none

/-- Modelled from the spec: component-wise semantic-version comparison,
`a` strictly below `b` (`LessThan` of the version package). -/
def SemVer.lessThan (a b : SemVer) : Bool :=
  if a.major ≠ b.major then a.major < b.major
  else if a.minor ≠ b.minor then a.minor < b.minor
  else a.patch < b.patch

/-- Modelled from the spec: `AtLeast(min)` of the version package,
`!v.LessThan(min)`. -/
def SemVer.atLeast (a b : SemVer) : Bool :=
  ¬ a.lessThan b

/-- Modelled from the spec: the repository constant `serverVersionV170`
referenced at src/resource.go line 80 but defined outside `src/`.  The spec
and the code's own comment fix the modern-protocol threshold at v1.7.0:
"The resource is of kind CRD if the Kubernetes server is 1.7.0 and above.
The resource is of kind TPR if the Kubernetes server is below 1.7.0." -/
def serverVersionV170 : String := "v1.7.0"

/-- One observable per-descriptor operation of `CreateCustomResources`:
a registration submission or a readiness wait, in either protocol. -/
inductive Action where
  | createCRDFor (r : CustomResource)
  | waitCRDFor (r : CustomResource)
  | createTPRFor (r : CustomResource)
  | waitTPRFor (r : CustomResource)
deriving DecidableEq, Repr

/-- Whether an action is a registration submission. -/
def Action.isCreate : Action → Bool
  | .createCRDFor _ => true
  | .createTPRFor _ => true
  | _ => false

/-- Whether an action is a readiness wait. -/
def Action.isWait : Action → Bool
  | .waitCRDFor _ => true
  | .waitTPRFor _ => true
  | _ => false

/-- How `CreateCustomResources` ends: a normal return carrying `lastErr`
(`none` for nil), or the panic `version.MustParseSemantic` raises on a
malformed version string. -/
inductive Outcome where
  | panic (version : String)
  | ret (e : Option KError)
deriving DecidableEq, Repr

/-- The CRD registration sweep (src/resource.go lines 81-86): one
`createCRD` per descriptor, in order; a non-nil error overwrites `lastErr`,
a nil one leaves it; no failure stops the loop.  Also returns the trace of
submissions. -/
def createAllCRD (context : Context) :
    List CustomResource → Option KError → Option KError × List Action
  | [], lastErr => (lastErr, [])
  | r :: rest, lastErr =>
    let lastErr' :=
      match createCRD context r with
      | some e => some e
      | none => lastErr
    let p := createAllCRD context rest lastErr'
    (p.1, Action.createCRDFor r :: p.2)

/-- The CRD waiting sweep (src/resource.go lines 88-92): one
`waitForCRDInit` per descriptor, in order; a failure overwrites `lastErr`
and the loop continues.  Also returns the trace of waits. -/
def waitAllCRD (context : Context) :
    List CustomResource → Option KError → Option KError × List Action
  | [], lastErr => (lastErr, [])
  | r :: rest, lastErr =>
    let lastErr' :=
      match waitForCRDInit context r with
      | .error e => some e
      | .ok _ => lastErr
    let p := waitAllCRD context rest lastErr'
    (p.1, Action.waitCRDFor r :: p.2)

/-- The TPR registration sweep (src/resource.go lines 95-100), analogous to
`createAllCRD`. -/
def createAllTPR (context : Context) :
    List CustomResource → Option KError → Option KError × List Action
  | [], lastErr => (lastErr, [])
  | r :: rest, lastErr =>
    let lastErr' :=
      match createTPR context r with
      | some e => some e
      | none => lastErr
    let p := createAllTPR context rest lastErr'
    (p.1, Action.createTPRFor r :: p.2)

/-- The TPR waiting sweep (src/resource.go lines 102-106), analogous to
`waitAllCRD`. -/
def waitAllTPR (context : Context) :
    List CustomResource → Option KError → Option KError × List Action
  | [], lastErr => (lastErr, [])
  | r :: rest, lastErr =>
    let lastErr' :=
      match waitForTPRInit context r with
      | some e => some e
      | none => lastErr
    let p := waitAllTPR context rest lastErr'
    (p.1, Action.waitTPRFor r :: p.2)

/-- `CreateCustomResources` (src/resource.go lines 70-109): query the server
version (an error there returns immediately), parse it
(`MustParseSemantic` panics on a malformed string), compare against the
v1.7.0 threshold; at or above, run the CRD registration sweep then the CRD
waiting sweep; below, the TPR sweeps; return the last error seen.  The
second component is the trace of per-descriptor operations performed. -/
def CreateCustomResources (context : Context)
    (resources : List CustomResource) : Outcome × List Action :=
  match context.env.serverVersion with
  | .error msg => (.ret (some (.serverVersionError msg)), [])
  | .ok gitVersion =>
    match parseSemantic gitVersion with
    | none => (.panic gitVersion, [])
    | some kubeVersion =>
      match parseSemantic serverVersionV170 with
      | none => (.panic serverVersionV170, [])
      | some threshold =>
        if kubeVersion.atLeast threshold then
          let c := createAllCRD context resources none
          let w := waitAllCRD context resources c.1
          (.ret w.1, c.2 ++ w.2)
        else
          let c := createAllTPR context resources none
          let w := waitAllTPR context resources c.1
          (.ret w.1, c.2 ++ w.2)

/-- A condition record reporting `Established` with status `True`
(terminal success of the modern-path wait). -/
def establishedTrue (c : CRDCondition) : Prop :=
  c.type = "Established" ∧ c.status = "True"

/-- A condition record reporting `NamesAccepted` with status `False`
(terminal naming-conflict failure of the modern-path wait). -/
def namesRejected (c : CRDCondition) : Prop :=
  c.type = "NamesAccepted" ∧ c.status = "False"

instance (c : CRDCondition) : Decidable (establishedTrue c) := by
  unfold establishedTrue; infer_instance

instance (c : CRDCondition) : Decidable (namesRejected c) := by
  unfold namesRejected; infer_instance

/-- A sample descriptor for concrete runs. -/
def sampleRes : CustomResource :=
  { name := "sample", plural := "samples", group := "example.com"
    version := "v1", scope := .namespaced, kind := "Sample" }

/-- A second sample descriptor. -/
def res2 : CustomResource :=
  { name := "two", plural := "twos", group := "example.com"
    version := "v1", scope := .namespaced, kind := "Two" }

/-- A third sample descriptor. -/
def res3 : CustomResource :=
  { name := "three", plural := "threes", group := "example.com"
    version := "v1", scope := .cluster, kind := "Three" }

/-- A control plane on which everything succeeds at the first poll:
version v1.8.2, creations accepted, CRDs immediately established, probes
immediately answered, deletions succeed. -/
def benignEnv : Env :=
  { serverVersion := .ok "v1.8.2"
    crdCreate := fun _ => none
    crdGet := fun _ _ => .ok [⟨"Established", "True", "InitialNamesAccepted"⟩]
    tprCreate := fun _ => none
    tprProbe := fun _ _ => .ok ()
    tprDelete := fun _ => none }

/-- A pre-v1.7.0 control plane, otherwise benign. -/
def legacyEnv : Env :=
  { benignEnv with serverVersion := .ok "v1.6.11" }

/-- A legacy control plane on which every probe fails with a transport
error and the compensating delete fails too. -/
def rollbackFailEnv : Env :=
  { legacyEnv with
    tprProbe := fun _ _ => .error (.other "transport broke")
    tprDelete := fun _ => some (.other "delete broke") }

/-- A legacy control plane on which every probe fails with a transport
error while the compensating delete succeeds. -/
def rollbackOkEnv : Env :=
  { legacyEnv with
    tprProbe := fun _ _ => .error (.other "transport broke") }

/-- A modern control plane whose first poll shows an unrelated condition
and whose later polls show a name rejection. -/
def conflictEnv : Env :=
  { benignEnv with
    crdGet := fun _ i =>
      if i = 0 then .ok [⟨"Other", "True", "irrelevant"⟩]
      else .ok [⟨"NamesAccepted", "False", "conflicting names"⟩] }

/-- A modern control plane whose first poll reports `Established`/`True`
ahead of `NamesAccepted`/`False` in the same snapshot, and only the
rejection afterwards. -/
def establishedThenConflictEnv : Env :=
  { benignEnv with
    crdGet := fun _ i =>
      if i = 0 then
        .ok [⟨"Established", "True", "ok"⟩,
          ⟨"NamesAccepted", "False", "late conflict"⟩]
      else .ok [⟨"NamesAccepted", "False", "late conflict"⟩] }

/-- A control plane that reports both declarations as already existing. -/
def alreadyExistsEnv : Env :=
  { benignEnv with
    crdCreate := fun _ => some .alreadyExists
    tprCreate := fun _ => some .alreadyExists }

/-- A legacy control plane whose probe returns "not found" on the first
three polls and succeeds from the fourth on. -/
def threeNotFoundEnv : Env :=
  { legacyEnv with
    tprProbe := fun _ i => if i < 3 then .error .notFound else .ok () }

/-- A modern control plane that rejects the submission of the `twos`
declaration with a quota error and accepts the others. -/
def quotaEnv : Env :=
  { benignEnv with
    crdCreate := fun o =>
      if o.name = "twos.example.com" then some (.other "quota exceeded")
      else none }

/-- A control plane reporting an unparseable version string. -/
def malformedEnv : Env :=
  { benignEnv with serverVersion := .ok "not-semver" }

theorem waitPollFrom_skip (condFn : Nat → CondResult) (j : Nat) :
    ∀ (fuel i : Nat), j ≤ fuel →
      (∀ k, k < j → condFn (i + k) = .notYet) →
      waitPollFrom condFn fuel i = waitPollFrom condFn (fuel - j) (i + j) := by
  induction j with
  | zero => intro fuel i _ _; simp
  | succ j ih =>
    intro fuel i hle h
    obtain ⟨f, rfl⟩ : ∃ f, fuel = f + 1 := ⟨fuel - 1, by omega⟩
    have h0 : condFn i = .notYet := by simpa using h 0 (Nat.succ_pos j)
    have step : waitPollFrom condFn (f + 1) i = waitPollFrom condFn f (i + 1) := by
      simp [waitPollFrom, h0]
    rw [step]
    have hfun : ∀ k, k < j → condFn (i + 1 + k) = .notYet := by
      intro k hk
      have e : i + 1 + k = i + (k + 1) := by omega
      rw [e]
      exact h (k + 1) (by omega)
    rw [ih f (i + 1) (by omega) hfun]
    have e1 : f - j = f + 1 - (j + 1) := by omega
    have e2 : i + 1 + j = i + (j + 1) := by omega
    rw [e1, e2]

/-- If the first `j` polls say "keep going" and poll `j` says "done" within
the timeout budget, the poll loop reports success. -/
theorem waitPoll_done (condFn : Nat → CondResult) (fuel j : Nat)
    (hj : j < fuel)
    (hprev : ∀ i, i < j → condFn i = .notYet)
    (hdone : condFn j = .done) :
    waitPoll fuel condFn = .ok () := by
  have hs := waitPollFrom_skip condFn j fuel 0 (by omega)
    (fun k hk => by simpa using hprev k hk)
  rw [waitPoll, hs]
  obtain ⟨m, hm⟩ : ∃ m, fuel - j = m + 1 := ⟨fuel - j - 1, by omega⟩
  rw [hm]
  simp [waitPollFrom, hdone]

/-- If the first `j` polls say "keep going" and poll `j` raises an error
within the timeout budget, the poll loop stops at once with that error. -/
theorem waitPoll_fail (condFn : Nat → CondResult) (fuel j : Nat) (e : KError)
    (hj : j < fuel)
    (hprev : ∀ i, i < j → condFn i = .notYet)
    (hfail : condFn j = .fail e) :
    waitPoll fuel condFn = .error e := by
  have hs := waitPollFrom_skip condFn j fuel 0 (by omega)
    (fun k hk => by simpa using hprev k hk)
  rw [waitPoll, hs]
  obtain ⟨m, hm⟩ : ∃ m, fuel - j = m + 1 := ⟨fuel - j - 1, by omega⟩
  rw [hm]
  simp [waitPollFrom, hfail]

/-- If every poll within the budget says "keep going", the poll loop gives
up with its timeout error. -/
theorem waitPoll_timeout (condFn : Nat → CondResult) (fuel : Nat)
    (h : ∀ i, i < fuel → condFn i = .notYet) :
    waitPoll fuel condFn = .error .waitTimeout := by
  have hs := waitPollFrom_skip condFn fuel fuel 0 le_rfl
    (fun k hk => by simpa using h k hk)
  rw [waitPoll, hs]
  simp [waitPollFrom]

/-- A snapshot with no terminal condition makes the condition scan report
"not yet". -/
theorem checkConditions_notYet (cs : List CRDCondition)
    (h : ∀ c ∈ cs, ¬ establishedTrue c ∧ ¬ namesRejected c) :
    checkConditions cs = .notYet := by
  induction cs with
  | nil => rfl
  | cons c rest ih =>
    have hc := h c (List.mem_cons_self c rest)
    have hrest := ih (fun c' hc' => h c' (List.mem_cons_of_mem c hc'))
    by_cases h1 : c.type = "Established"
    · have h2 : ¬ c.status = "True" := fun hs => hc.1 ⟨h1, hs⟩
      simp [checkConditions, h1, h2, hrest]
    · by_cases h3 : c.type = "NamesAccepted"
      · have h4 : ¬ c.status = "False" := fun hs => hc.2 ⟨h3, hs⟩
        simp [checkConditions, h1, h3, h4, hrest]
      · simp [checkConditions, h1, h3, hrest]

/-- If the conditions before `c` are all non-terminal and `c` reports
`Established`/`True`, the scan reports success, whatever follows `c`. -/
theorem checkConditions_append_done (pre post : List CRDCondition)
    (c : CRDCondition)
    (hpre : ∀ c' ∈ pre, ¬ establishedTrue c' ∧ ¬ namesRejected c')
    (hc : establishedTrue c) :
    checkConditions (pre ++ c :: post) = .done := by
  induction pre with
  | nil =>
    obtain ⟨h1, h2⟩ := hc
    simp [checkConditions, h1, h2]
  | cons d rest ih =>
    have hd := hpre d (List.mem_cons_self d rest)
    have hrest := ih (fun c' hc' => hpre c' (List.mem_cons_of_mem d hc'))
    by_cases h1 : d.type = "Established"
    · have h2 : ¬ d.status = "True" := fun hs => hd.1 ⟨h1, hs⟩
      simp [checkConditions, h1, h2, hrest]
    · by_cases h3 : d.type = "NamesAccepted"
      · have h4 : ¬ d.status = "False" := fun hs => hd.2 ⟨h3, hs⟩
        simp [checkConditions, h1, h3, h4, hrest]
      · simp [checkConditions, h1, h3, hrest]

/-- If the conditions before `c` are all non-terminal and `c` reports
`NamesAccepted`/`False`, the scan reports the naming conflict with `c`'s
reason, whatever follows `c`. -/
theorem checkConditions_append_fail (pre post : List CRDCondition)
    (c : CRDCondition)
    (hpre : ∀ c' ∈ pre, ¬ establishedTrue c' ∧ ¬ namesRejected c')
    (hc : namesRejected c) :
    checkConditions (pre ++ c :: post) = .fail (.nameConflict c.reason) := by
  induction pre with
  | nil =>
    obtain ⟨h1, h2⟩ := hc
    by_cases h0 : c.type = "Established"
    · exact absurd (h0.symm.trans h1) (by decide)
    · simp [checkConditions, h0, h1, h2]
  | cons d rest ih =>
    have hd := hpre d (List.mem_cons_self d rest)
    have hrest := ih (fun c' hc' => hpre c' (List.mem_cons_of_mem d hc'))
    by_cases h1 : d.type = "Established"
    · have h2 : ¬ d.status = "True" := fun hs => hd.1 ⟨h1, hs⟩
      simp [checkConditions, h1, h2, hrest]
    · by_cases h3 : d.type = "NamesAccepted"
      · have h4 : ¬ d.status = "False" := fun hs => hd.2 ⟨h3, hs⟩
        simp [checkConditions, h1, h3, h4, hrest]
      · simp [checkConditions, h1, h3, hrest]

theorem createAllCRD_trace (context : Context) :
    ∀ (rs : List CustomResource) (e0 : Option KError),
      (createAllCRD context rs e0).2 = rs.map Action.createCRDFor
  | [], _ => rfl
  | r :: rest, e0 => by
    simp [createAllCRD, createAllCRD_trace context rest]

theorem waitAllCRD_trace (context : Context) :
    ∀ (rs : List CustomResource) (e0 : Option KError),
      (waitAllCRD context rs e0).2 = rs.map Action.waitCRDFor
  | [], _ => rfl
  | r :: rest, e0 => by
    simp [waitAllCRD, waitAllCRD_trace context rest]

theorem createAllTPR_trace (context : Context) :
    ∀ (rs : List CustomResource) (e0 : Option KError),
      (createAllTPR context rs e0).2 = rs.map Action.createTPRFor
  | [], _ => rfl
  | r :: rest, e0 => by
    simp [createAllTPR, createAllTPR_trace context rest]

theorem waitAllTPR_trace (context : Context) :
    ∀ (rs : List CustomResource) (e0 : Option KError),
      (waitAllTPR context rs e0).2 = rs.map Action.waitTPRFor
  | [], _ => rfl
  | r :: rest, e0 => by
    simp [waitAllTPR, waitAllTPR_trace context rest]

/-- Once the server version is fetched and parsed, `CreateCustomResources`
is the chosen protocol's create sweep followed by its wait sweep. -/
theorem CreateCustomResources_run (context : Context)
    (resources : List CustomResource) (gv : String) (v : SemVer)
    (hsv : context.env.serverVersion = .ok gv)
    (hparse : parseSemantic gv = some v) :
    CreateCustomResources context resources =
      if v.atLeast ⟨1, 7, 0⟩ then
        (.ret (waitAllCRD context resources
            (createAllCRD context resources none).1).1,
          (createAllCRD context resources none).2 ++
            (waitAllCRD context resources
              (createAllCRD context resources none).1).2)
      else
        (.ret (waitAllTPR context resources
            (createAllTPR context resources none).1).1,
          (createAllTPR context resources none).2 ++
            (waitAllTPR context resources
              (createAllTPR context resources none).1).2) := by
  have hthr : parseSemantic serverVersionV170 = some ⟨1, 7, 0⟩ := by decide
  simp [CreateCustomResources, hsv, hparse, hthr]

/-- The operation trace after a successful version fetch and parse: the
chosen protocol's registrations, in input order, then its waits, in input
order. -/
theorem CreateCustomResources_trace (context : Context)
    (resources : List CustomResource) (gv : String) (v : SemVer)
    (hsv : context.env.serverVersion = .ok gv)
    (hparse : parseSemantic gv = some v) :
    (CreateCustomResources context resources).2 =
      if v.atLeast ⟨1, 7, 0⟩ then
        resources.map Action.createCRDFor ++ resources.map Action.waitCRDFor
      else
        resources.map Action.createTPRFor ++ resources.map Action.waitTPRFor := by
  rw [CreateCustomResources_run context resources gv v hsv hparse]
  cases h : SemVer.atLeast v ⟨1, 7, 0⟩ <;>
    simp [h, createAllCRD_trace, waitAllCRD_trace, createAllTPR_trace,
      waitAllTPR_trace]

/-- C1: in the legacy (TPR) path, whenever the wait of a descriptor fails
with error `e` (timeout included), `waitForTPRInit` attempts the
compensating delete of the declaration registered under `tprName`; if the
delete itself fails with `d` the returned error is the aggregate of `e` and
`d` (neither suppressed), and if the delete succeeds exactly `e` is
returned alone. -/
theorem tpr_wait_failure_rollback (context : Context)
    (resource : CustomResource) (e : KError)
    (h : waitPoll context.fuel (tprProbeFn context resource) = .error e) :
    (∀ d, context.env.tprDelete (tprName resource) = some d →
      waitForTPRInit context resource = some (.aggregate e d)) ∧
    (context.env.tprDelete (tprName resource) = none →
      waitForTPRInit context resource = some e) := by
  constructor
  · intro d hd
    simp [waitForTPRInit, h, hd]
  · intro hd
    simp [waitForTPRInit, h, hd]

/-- C1 witness: a transport error during every probe, with a failing delete
on one control plane and a successful delete on another. -/
theorem tpr_wait_failure_rollback_witness :
    waitForTPRInit ⟨rollbackFailEnv, 5⟩ sampleRes =
      some (.aggregate (.other "transport broke") (.other "delete broke")) ∧
    waitForTPRInit ⟨rollbackOkEnv, 5⟩ sampleRes =
      some (.other "transport broke") := by
  constructor
  · exact (tpr_wait_failure_rollback ⟨rollbackFailEnv, 5⟩ sampleRes
      (.other "transport broke") rfl).1 (.other "delete broke") rfl
  · exact (tpr_wait_failure_rollback ⟨rollbackOkEnv, 5⟩ sampleRes
      (.other "transport broke") rfl).2 rfl

/-- C2: modern (CRD) path: if the first `j` polls observe only non-terminal
conditions and poll `j` observes a snapshot whose first terminal condition
is `NamesAccepted`/`False` (in particular no prior `Established`/`True`
anywhere), the wait stops at poll `j` with a naming-conflict error carrying
that condition's reason — for every remaining timeout budget, so it never
polls on to the deadline. -/
theorem crd_names_rejected_fails_fast (context : Context)
    (resource : CustomResource) (j : Nat) (pre post : List CRDCondition)
    (c : CRDCondition)
    (hj : j < context.fuel)
    (hprev : ∀ i, i < j → ∃ cs,
      context.env.crdGet (crdName resource) i = .ok cs ∧
      ∀ c' ∈ cs, ¬ establishedTrue c' ∧ ¬ namesRejected c')
    (hget : context.env.crdGet (crdName resource) j = .ok (pre ++ c :: post))
    (hc : namesRejected c)
    (hpre : ∀ c' ∈ pre, ¬ establishedTrue c' ∧ ¬ namesRejected c') :
    waitForCRDInit context resource = .error (.nameConflict c.reason) := by
  unfold waitForCRDInit
  apply waitPoll_fail _ _ j _ hj
  · intro i hi
    obtain ⟨cs, hcs, hnt⟩ := hprev i hi
    simp [crdCondFn, hcs, checkConditions_notYet cs hnt]
  · simp [crdCondFn, hget, checkConditions_append_fail pre post c hpre hc]

/-- C2 witness: an unrelated condition at poll 0, a name rejection at
poll 1, a budget of 100 polls: the wait fails at once with the conflict. -/
theorem crd_names_rejected_fails_fast_witness :
    waitForCRDInit ⟨conflictEnv, 100⟩ sampleRes =
      .error (.nameConflict "conflicting names") :=
  crd_names_rejected_fails_fast ⟨conflictEnv, 100⟩ sampleRes 1
    [] [] ⟨"NamesAccepted", "False", "conflicting names"⟩
    (by decide)
    (fun i hi => by
      have h0 : i = 0 := by omega
      subst h0
      exact ⟨[⟨"Other", "True", "irrelevant"⟩], rfl, by decide⟩)
    rfl (by decide) (by simp)

/-- C3: modern (CRD) path: if the first `j` polls observe only non-terminal
conditions and poll `j` observes a snapshot whose first terminal condition
is `Established`/`True`, the wait reports success — whatever follows that
condition in the same snapshot (a name rejection included) and whatever any
later poll would have shown: the first terminal condition observed wins. -/
theorem crd_established_first_wins (context : Context)
    (resource : CustomResource) (j : Nat) (pre post : List CRDCondition)
    (c : CRDCondition)
    (hj : j < context.fuel)
    (hprev : ∀ i, i < j → ∃ cs,
      context.env.crdGet (crdName resource) i = .ok cs ∧
      ∀ c' ∈ cs, ¬ establishedTrue c' ∧ ¬ namesRejected c')
    (hget : context.env.crdGet (crdName resource) j = .ok (pre ++ c :: post))
    (hc : establishedTrue c)
    (hpre : ∀ c' ∈ pre, ¬ establishedTrue c' ∧ ¬ namesRejected c') :
    waitForCRDInit context resource = .ok () := by
  unfold waitForCRDInit
  apply waitPoll_done _ _ j hj
  · intro i hi
    obtain ⟨cs, hcs, hnt⟩ := hprev i hi
    simp [crdCondFn, hcs, checkConditions_notYet cs hnt]
  · simp [crdCondFn, hget, checkConditions_append_done pre post c hpre hc]

/-- C3 witness: poll 0 reports `Established`/`True` ahead of
`NamesAccepted`/`False` in the same snapshot (and every later poll would
only show the rejection): the wait reports success. -/
theorem crd_established_first_wins_witness :
    waitForCRDInit ⟨establishedThenConflictEnv, 100⟩ sampleRes = .ok () :=
  crd_established_first_wins ⟨establishedThenConflictEnv, 100⟩ sampleRes 0
    [] [⟨"NamesAccepted", "False", "late conflict"⟩] ⟨"Established", "True", "ok"⟩
    (by decide)
    (fun i hi => absurd hi (by omega))
    rfl (by decide) (by simp)

/-- C4: with a fetched and parseable server version, the operation performs
the modern (CRD) registration-and-wait sweeps exactly when the version is
at least the v1.7.0 threshold, and the legacy (TPR) sweeps exactly when it
is below. -/
theorem version_threshold_selects_path (context : Context)
    (resources : List CustomResource) (gv : String) (v : SemVer)
    (hsv : context.env.serverVersion = .ok gv)
    (hparse : parseSemantic gv = some v) :
    (CreateCustomResources context resources).2 =
      if v.atLeast ⟨1, 7, 0⟩ then
        resources.map Action.createCRDFor ++ resources.map Action.waitCRDFor
      else
        resources.map Action.createTPRFor ++ resources.map Action.waitTPRFor :=
  CreateCustomResources_trace context resources gv v hsv hparse

/-- C4 witness: v1.8.2 yields the CRD actions, v1.6.11 the TPR actions. -/
theorem version_threshold_selects_path_witness :
    (CreateCustomResources ⟨benignEnv, 5⟩ [sampleRes]).2 =
      [Action.createCRDFor sampleRes, Action.waitCRDFor sampleRes] ∧
    (CreateCustomResources ⟨legacyEnv, 5⟩ [sampleRes]).2 =
      [Action.createTPRFor sampleRes, Action.waitTPRFor sampleRes] := by
  constructor
  · have h := version_threshold_selects_path ⟨benignEnv, 5⟩ [sampleRes]
      "v1.8.2" ⟨1, 8, 2⟩ rfl (by decide)
    rw [h]
    decide
  · have h := version_threshold_selects_path ⟨legacyEnv, 5⟩ [sampleRes]
      "v1.6.11" ⟨1, 6, 11⟩ rfl (by decide)
    rw [h]
    decide

/-- C5: in both protocols an "already exists" submission error counts as
success: `createCRD` and `createTPR` return no error for a descriptor whose
declaration is already registered, so re-running registration yields no
submission error. -/
theorem already_exists_submission_is_success (context : Context)
    (resource : CustomResource) (e1 e2 : KError)
    (h1 : context.env.crdCreate (buildCRD resource) = some e1)
    (he1 : IsAlreadyExists e1 = true)
    (h2 : context.env.tprCreate (buildTPR resource) = some e2)
    (he2 : IsAlreadyExists e2 = true) :
    createCRD context resource = none ∧ createTPR context resource = none := by
  constructor
  · simp [createCRD, h1, he1]
  · simp [createTPR, h2, he2]

/-- C5 witness: a control plane on which both declarations already exist
registers without error in both protocols. -/
theorem already_exists_submission_is_success_witness :
    createCRD ⟨alreadyExistsEnv, 5⟩ sampleRes = none ∧
    createTPR ⟨alreadyExistsEnv, 5⟩ sampleRes = none :=
  already_exists_submission_is_success ⟨alreadyExistsEnv, 5⟩ sampleRes
    .alreadyExists .alreadyExists rfl rfl rfl rfl

/-- C6: legacy (TPR) path probe semantics against
`apis/{group}/{version}/{pluralName}`: given that the first `j` probes
answer "not found" (each of which keeps the poll going), a success response
at poll `j` within the budget makes the whole wait succeed, any other probe
error at poll `j` terminates the poll loop at once with that error, and a
budget of at most `j` polls times out instead — so with "not found" on the
first 3 polls and success on the 4th, the wait succeeds on the 4th poll and
not earlier. -/
theorem tpr_probe_poll_semantics (context : Context)
    (resource : CustomResource) (j : Nat)
    (hj : j < context.fuel)
    (hnf : ∀ i, i < j → ∃ e,
      context.env.tprProbe (tprURI resource) i = .error e ∧
      IsNotFound e = true) :
    (context.env.tprProbe (tprURI resource) j = .ok () →
      waitForTPRInit context resource = none) ∧
    (∀ e, context.env.tprProbe (tprURI resource) j = .error e →
      IsNotFound e = false →
      waitPoll context.fuel (tprProbeFn context resource) = .error e) ∧
    (∀ f, f ≤ j →
      waitPoll f (tprProbeFn context resource) = .error .waitTimeout) := by
  have hnotyet : ∀ i, i < j → tprProbeFn context resource i = .notYet := by
    intro i hi
    obtain ⟨e, he, hnfe⟩ := hnf i hi
    simp [tprProbeFn, he, hnfe]
  refine ⟨?_, ?_, ?_⟩
  · intro hok
    have hdone : tprProbeFn context resource j = .done := by
      simp [tprProbeFn, hok]
    have hw := waitPoll_done _ context.fuel j hj hnotyet hdone
    simp [waitForTPRInit, hw]
  · intro e he hne
    have hfail : tprProbeFn context resource j = .fail e := by
      simp [tprProbeFn, he, hne]
    exact waitPoll_fail _ context.fuel j e hj hnotyet hfail
  · intro f hf
    exact waitPoll_timeout _ f (fun i hi => hnotyet i (by omega))

/-- C6 witness: "not found" on polls 0-2 and success from poll 3 on: with a
budget of 10 polls the wait succeeds, while a budget of only 3 polls times
out. -/
theorem tpr_probe_poll_semantics_witness :
    waitForTPRInit ⟨threeNotFoundEnv, 10⟩ sampleRes = none ∧
    waitPoll 3 (tprProbeFn ⟨threeNotFoundEnv, 10⟩ sampleRes) =
      .error .waitTimeout := by
  have h := tpr_probe_poll_semantics ⟨threeNotFoundEnv, 10⟩ sampleRes 3
    (by decide)
    (fun i hi => ⟨.notFound, by simp [threeNotFoundEnv, legacyEnv, benignEnv, hi], rfl⟩)
  exact ⟨h.1 rfl, h.2.2 3 le_rfl⟩

/-- C7: a per-descriptor failure never stops either phase: whenever the
version fetch and parse succeed, every descriptor of the input list appears
in the trace with a registration action and with a wait action of the
chosen protocol — with no assumption at all on which submissions, fetches
or probes fail. -/
theorem per_descriptor_failures_skip_nothing (context : Context)
    (resources : List CustomResource) (r : CustomResource) (gv : String)
    (v : SemVer)
    (hr : r ∈ resources)
    (hsv : context.env.serverVersion = .ok gv)
    (hparse : parseSemantic gv = some v) :
    (v.atLeast ⟨1, 7, 0⟩ = true →
      Action.createCRDFor r ∈ (CreateCustomResources context resources).2 ∧
      Action.waitCRDFor r ∈ (CreateCustomResources context resources).2) ∧
    (v.atLeast ⟨1, 7, 0⟩ = false →
      Action.createTPRFor r ∈ (CreateCustomResources context resources).2 ∧
      Action.waitTPRFor r ∈ (CreateCustomResources context resources).2) := by
  have ht := CreateCustomResources_trace context resources gv v hsv hparse
  constructor
  · intro hv
    rw [ht]
    simp [hv, List.mem_append, List.mem_map, hr]
  · intro hv
    rw [ht]
    simp [hv, List.mem_append, List.mem_map, hr]

/-- C7 witness: three descriptors, the second one's submission fails with a
quota error, yet the first and third are registered and waited on. -/
theorem per_descriptor_failures_skip_nothing_witness :
    createCRD ⟨quotaEnv, 5⟩ res2 =
      some (.failedCreateCRD "two" (.other "quota exceeded")) ∧
    (Action.createCRDFor res3 ∈
        (CreateCustomResources ⟨quotaEnv, 5⟩ [sampleRes, res2, res3]).2 ∧
      Action.waitCRDFor res3 ∈
        (CreateCustomResources ⟨quotaEnv, 5⟩ [sampleRes, res2, res3]).2) ∧
    Action.waitCRDFor sampleRes ∈
      (CreateCustomResources ⟨quotaEnv, 5⟩ [sampleRes, res2, res3]).2 := by
  refine ⟨by decide, ?_, ?_⟩
  · exact (per_descriptor_failures_skip_nothing ⟨quotaEnv, 5⟩
      [sampleRes, res2, res3] res3 "v1.8.2" ⟨1, 8, 2⟩ (by decide) rfl
      (by decide)).1 (by decide)
  · exact ((per_descriptor_failures_skip_nothing ⟨quotaEnv, 5⟩
      [sampleRes, res2, res3] sampleRes "v1.8.2" ⟨1, 8, 2⟩ (by decide) rfl
      (by decide)).1 (by decide)).2

/-- C8: all registration submissions happen strictly before any readiness
wait begins: whenever the version fetch and parse succeed, the trace splits
into a prefix made only of registration actions — one for every descriptor
of the input list — followed by a suffix made only of wait actions. -/
theorem registrations_precede_waits (context : Context)
    (resources : List CustomResource) (gv : String) (v : SemVer)
    (hsv : context.env.serverVersion = .ok gv)
    (hparse : parseSemantic gv = some v) :
    ∃ t1 t2, (CreateCustomResources context resources).2 = t1 ++ t2 ∧
      (∀ a ∈ t1, a.isCreate = true) ∧
      (∀ a ∈ t2, a.isWait = true) ∧
      (∀ r ∈ resources,
        Action.createCRDFor r ∈ t1 ∨ Action.createTPRFor r ∈ t1) := by
  have ht := CreateCustomResources_trace context resources gv v hsv hparse
  cases hv : SemVer.atLeast v ⟨1, 7, 0⟩ with
  | true =>
    refine ⟨resources.map Action.createCRDFor,
      resources.map Action.waitCRDFor, by rw [ht]; simp [hv], ?_, ?_, ?_⟩
    · intro a ha
      obtain ⟨r, _, rfl⟩ := List.mem_map.mp ha
      rfl
    · intro a ha
      obtain ⟨r, _, rfl⟩ := List.mem_map.mp ha
      rfl
    · intro r hr
      exact Or.inl (List.mem_map_of_mem _ hr)
  | false =>
    refine ⟨resources.map Action.createTPRFor,
      resources.map Action.waitTPRFor, by rw [ht]; simp [hv], ?_, ?_, ?_⟩
    · intro a ha
      obtain ⟨r, _, rfl⟩ := List.mem_map.mp ha
      rfl
    · intro a ha
      obtain ⟨r, _, rfl⟩ := List.mem_map.mp ha
      rfl
    · intro r hr
      exact Or.inr (List.mem_map_of_mem _ hr)

/-- C8 witness: a concrete two-descriptor run splits into registrations
covering both descriptors followed by waits only. -/
theorem registrations_precede_waits_witness :
    ∃ t1 t2,
      (CreateCustomResources ⟨benignEnv, 5⟩ [sampleRes, res2]).2 = t1 ++ t2 ∧
      (∀ a ∈ t1, a.isCreate = true) ∧
      (∀ a ∈ t2, a.isWait = true) ∧
      (∀ r ∈ [sampleRes, res2],
        Action.createCRDFor r ∈ t1 ∨ Action.createTPRFor r ∈ t1) :=
  registrations_precede_waits ⟨benignEnv, 5⟩ [sampleRes, res2]
    "v1.8.2" ⟨1, 8, 2⟩ rfl (by decide)

/-- C9: a server version string that does not parse as a semantic version
aborts the whole operation (the panic `version.MustParseSemantic` raises,
modelled as `Outcome.panic`) with an empty trace: no descriptor is
registered and none is waited on. -/
theorem malformed_version_aborts_before_submission (context : Context)
    (resources : List CustomResource) (gv : String)
    (hsv : context.env.serverVersion = .ok gv)
    (hparse : parseSemantic gv = none) :
    CreateCustomResources context resources = (.panic gv, []) := by
  simp [CreateCustomResources, hsv, hparse]

/-- C9 witness: the version string "not-semver" aborts a one-descriptor run
before anything is submitted. -/
theorem malformed_version_aborts_before_submission_witness :
    CreateCustomResources ⟨malformedEnv, 5⟩ [sampleRes] =
      (.panic "not-semver", []) :=
  malformed_version_aborts_before_submission ⟨malformedEnv, 5⟩ [sampleRes]
    "not-semver" rfl (by decide)

/-- C10: the waiting sweep covers even descriptors whose registration
submission failed in the same run: if the chosen protocol's create call for
a listed descriptor returned a submission error, that same descriptor's
wait action still appears in the trace. -/
theorem failed_submission_still_waited (context : Context)
    (resources : List CustomResource) (r : CustomResource) (gv : String)
    (v : SemVer)
    (hr : r ∈ resources)
    (hsv : context.env.serverVersion = .ok gv)
    (hparse : parseSemantic gv = some v) :
    (∀ e, v.atLeast ⟨1, 7, 0⟩ = true → createCRD context r = some e →
      Action.waitCRDFor r ∈ (CreateCustomResources context resources).2) ∧
    (∀ e, v.atLeast ⟨1, 7, 0⟩ = false → createTPR context r = some e →
      Action.waitTPRFor r ∈ (CreateCustomResources context resources).2) := by
  have ht := CreateCustomResources_trace context resources gv v hsv hparse
  constructor
  · intro e hv _
    rw [ht]
    simp [hv, List.mem_append, List.mem_map, hr]
  · intro e hv _
    rw [ht]
    simp [hv, List.mem_append, List.mem_map, hr]

/-- C10 witness: the second descriptor's submission fails with a quota
error, yet its wait action still appears in the trace of the run. -/
theorem failed_submission_still_waited_witness :
    createCRD ⟨quotaEnv, 5⟩ res2 =
      some (.failedCreateCRD "two" (.other "quota exceeded")) ∧
    Action.waitCRDFor res2 ∈
      (CreateCustomResources ⟨quotaEnv, 5⟩ [sampleRes, res2, res3]).2 := by
  refine ⟨by decide, ?_⟩
  exact (failed_submission_still_waited ⟨quotaEnv, 5⟩ [sampleRes, res2, res3]
    res2 "v1.8.2" ⟨1, 8, 2⟩ (by decide) rfl (by decide)).1
    (.failedCreateCRD "two" (.other "quota exceeded")) (by decide) (by decide)

end OperatorKit
